import Mathlib

/-!
Verification of the oae-bbb plugin: a BigBlueButton (BBB) API proxy, a
meeting-join URL signer, and search-document producers for the meetings
resource type. The JavaScript source is shallowly embedded below: external
services (the sha1 library, encodeURIComponent, the tenant configuration
store, the message-box search helpers, the HTTP stack) are abstracted as
function parameters, and asynchronous callback flows are modelled as
explicit event traces following the node.js event-loop ordering, where all
synchronous code of a callback runs before any later asynchronous callback
fires.
-/

namespace OaeBbb

/-- JavaScript String.prototype.substring: both indices are clamped to the
string length and swapped when out of order. -/
def jsSubstring (s : String) (start stop : Nat) : String :=
  let len := s.length
  let a := min start len
  let b := min stop len
  let lo := min a b
  let hi := max a b
  (((s.toList).drop lo).take (hi - lo)).asString

/-- JavaScript loose equality of a possibly-undefined string property with a
string literal: undefined compares unequal to every string. -/
def jsEqStr (v : Option String) (t : String) : Bool :=
  match v with
  | some s => s == t
  | none => false

/-- Truthiness of a possibly-undefined string value: undefined and the empty
string are falsy, every other string is truthy. -/
def jsTruthyStr (v : Option String) : Bool :=
  match v with
  | some s => s != ""
  | none => false

/-- Embedding of `_getChecksum(action, secret, params)` from the URL signer
module: `sha1(action + params + secret)`. -/
def getChecksum (sha1 : String → String) (action secret params : String) : String :=
  sha1 (action ++ params ++ secret)

/-- Embedding of `_getBBBActionURL(endpoint, action, secret, params)`:
the concatenation of endpoint, "api/", action, "?", params, "&checksum=" and the checksum. -/
def getBBBActionURL (sha1 : String → String) (endpoint action secret params : String) : String :=
  endpoint ++ "api/" ++ action ++ "?" ++ params ++ "&checksum=" ++ getChecksum sha1 action secret params

/-- Embedding of `_getVerifiedBBBEndpoint(endpoint)`: the body is just
`return endpoint;` (the comment about a trailing slash is not implemented). -/
def getVerifiedBBBEndpoint (endpoint : String) : String :=
  endpoint

/-- The object returned by `_getConfig`: fields `endpoint` and `secret`. -/
structure BBBCfg where
  endpoint : String
  secret : String
deriving DecidableEq, Repr

/-- Embedding of `_getConfig(tenantAlias)`. The tenant configuration store
`BBBConfig.getValue` lives in the host framework and is abstracted as the
function parameter `getValue`, taking the tenant alias and the two keys. -/
def getConfig (getValue : String → String → String → String) (tenantAlias : String) : BBBCfg :=
  { endpoint := getVerifiedBBBEndpoint (getValue tenantAlias "bbb" "endpoint"),
    secret := getValue tenantAlias "bbb" "secret" }

/-- The loop body of `_getQueryStringParams`: a separator is appended first
unless the accumulated string is still empty, then the key, "=" and the
value. -/
def qsStep (qsParams : String) (p : String × String) : String :=
  (if qsParams != "" then qsParams ++ "&" else qsParams) ++ p.1 ++ "=" ++ p.2

/-- Embedding of `_getQueryStringParams(params)`: the JavaScript for-in loop
over an object literal visits own properties in insertion order, so the
object is modelled as an association list in insertion order. -/
def getQueryStringParams (params : List (String × String)) : String :=
  params.foldl qsStep ""

/-- The `meetingID` local of `getJoinMeetingURL`: `sha1(meetingProfile.id + config.secret)`. -/
def meetingIDOf (sha1 : String → String) (profileId secret : String) : String :=
  sha1 (profileId ++ secret)

/-- The `moderatorPW` local computed at the top of `getJoinMeetingURL`:
`sha1(meetingID.substring(0,8) + config.secret)`. -/
def initialModeratorPW (sha1 : String → String) (profileId secret : String) : String :=
  sha1 (jsSubstring (meetingIDOf sha1 profileId secret) 0 8 ++ secret)

/-- The `attendeePW` local computed at the top of `getJoinMeetingURL`:
`sha1(meetingID.substring(8,8) + config.secret)`. -/
def initialAttendeePW (sha1 : String → String) (profileId secret : String) : String :=
  sha1 (jsSubstring (meetingIDOf sha1 profileId secret) 8 8 ++ secret)

/-- A successful xml2js parse of a BBB response chunk: the parsed object
carries the document under its `response` key. The shape of the response
object itself is abstract (the type parameter Resp); `executeBBBCall` only
reads its `returncode` property, abstracted below as a projection. -/
structure ParsedXml (Resp : Type) where
  response : Resp
deriving DecidableEq, Repr

/-- One invocation of the caller-supplied callback of `executeBBBCall`. -/
inductive ProxyCallback (Err Resp : Type)
  /-- `callback(err)` with a truthy error. -/
  | withErr (e : Err)
  /-- `callback(null, response)`. -/
  | withResp (r : Resp)
deriving DecidableEq, Repr

/-- The observable outcome of `executeBBBCall` for one stimulus from the
HTTP stack. -/
inductive ProxyOutcome (Err Resp : Type)
  /-- The callback is never invoked: the source registers handlers only for
  the response and its data events, no error listener on the request. -/
  | noCallback
  /-- The callback is invoked once, with the given arguments. -/
  | callbackCalled (c : ProxyCallback Err Resp)
deriving DecidableEq, Repr

/-- One stimulus delivered by the node HTTP stack for an outgoing request:
either the request fails (the ClientRequest emits an error event) or a
response data chunk arrives. -/
inductive HttpStimulus (Err Chunk : Type)
  | requestError (e : Err)
  | responseChunk (c : Chunk)
deriving DecidableEq, Repr

/-- Embedding of `executeBBBCall(url, callback)` from the proxy module, as a
function from one HTTP-stack stimulus to the callback outcome. The xml2js
parser is abstracted as `parse`, and the `returncode` property read as
`returncode`. The source attaches a handler to the data event of the
response only; a request-level error has no listener, so no callback runs
for it. On a parse error the callback receives the error; on a parse
success the source compares the returncode of the response against "SUCCESS"
but both branches return the response with a null error to the callback. -/
def executeBBBCall {Err Resp Chunk : Type} (returncode : Resp → String)
    (parse : Chunk → Except Err (ParsedXml Resp)) :
    HttpStimulus Err Chunk → ProxyOutcome Err Resp
  | .requestError _ => .noCallback
  | .responseChunk c =>
    match parse c with
    | .error e => .callbackCalled (.withErr e)
    | .ok result =>
      if returncode result.response == "SUCCESS" then
        .callbackCalled (.withResp result.response)
      else
        .callbackCalled (.withResp result.response)

/-- The tenant object attached to a meeting; the document producer reads
only its alias property, embedded here as `aliasName` since `alias` is a
reserved word in Lean. -/
structure Tenant where
  aliasName : String
deriving DecidableEq, Repr

/-- A meeting item as consumed by `_produceMeetingSearchDocument`:
`description` is optional (it may be undefined or empty). -/
structure Meeting where
  id : String
  tenant : Tenant
  displayName : String
  description : Option String
  visibility : String
  lastModified : String
deriving DecidableEq, Repr

/-- Embedding of underscore `_.compact` over a list of possibly-undefined
strings: falsy entries (undefined and the empty string) are dropped. -/
def compactStrings (l : List (Option String)) : List String :=
  l.filterMap (fun v =>
    match v with
    | some s => if s != "" then some s else none
    | none => none)

/-- JavaScript Array join with a single-space separator. -/
def joinSpace (l : List String) : String :=
  String.intercalate " " l

/-- The search document built by `_produceMeetingSearchDocument`. The
`_extra` sub-object holds only `lastModified`, embedded here as the
`extra_lastModified` field; `description` is `none` exactly when the source
leaves the field off the document. -/
structure SearchDoc where
  resourceType : String
  id : String
  tenantAlias : String
  displayName : String
  visibility : String
  q_high : String
  q_low : String
  sort : String
  extra_lastModified : String
  description : Option String
deriving DecidableEq, Repr

/-- Embedding of `_produceMeetingSearchDocument(meeting)` from
src/lib/search.js, registered for resource type "meeting". -/
def produceMeetingSearchDocument (meeting : Meeting) : SearchDoc :=
  let fullText := joinSpace (compactStrings [some meeting.displayName, meeting.description])
  { resourceType := "meeting",
    id := meeting.id,
    tenantAlias := meeting.tenant.aliasName,
    displayName := meeting.displayName,
    visibility := meeting.visibility,
    q_high := meeting.displayName,
    q_low := fullText,
    sort := meeting.displayName,
    extra_lastModified := meeting.lastModified,
    description := if jsTruthyStr meeting.description then meeting.description else none }

/-- A resource handed to `_getMeetings`: it has an id, and possibly an
embedded meeting object under its `meeting` property (an object is always
truthy). -/
structure SearchResource where
  id : String
  meeting : Option Meeting
deriving DecidableEq, Repr

/-- The observable outcome of `_getMeetings(resources, callback)`. -/
inductive GetMeetingsOutcome
  /-- A ReferenceError escapes: the branch for an embedded meeting pushes
  onto the identifier `dicussions`, which is defined nowhere. -/
  | thrown
  /-- `callback(null, [])` for an empty id list. -/
  | callbackEmptyMeetings
  /-- `MeetingsDAO.getMeetingsById(meetingIds, null, callback)` with the
  collected ids. -/
  | daoGetMeetingsById (meetingIds : List String)
deriving DecidableEq, Repr

/-- The `_.each` loop of `_getMeetings`: resources are visited in order, a
resource with a truthy `meeting` property raises the ReferenceError
(modelled as `none`), any other resource appends its id. -/
def getMeetingsLoop : List SearchResource → List String → Option (List String)
  | [], meetingIds => some meetingIds
  | r :: rest, meetingIds =>
    match r.meeting with
    | some _ => none
    | none => getMeetingsLoop rest (meetingIds ++ [r.id])

/-- Embedding of `_getMeetings(resources, callback)` from src/lib/search.js. -/
def getMeetings (resources : List SearchResource) : GetMeetingsOutcome :=
  match getMeetingsLoop resources [] with
  | none => .thrown
  | some meetingIds =>
    if meetingIds.isEmpty then .callbackEmptyMeetings
    else .daoGetMeetingsById meetingIds

/-- The meeting profile consumed by `getJoinMeetingURL`: only its id and
displayName are read. -/
structure MeetingProfile where
  id : String
  displayName : String
deriving DecidableEq, Repr

/-- The user consumed by `getJoinMeetingURL`: only its displayName is read. -/
structure User where
  displayName : String
deriving DecidableEq, Repr

/-- A BBB meetingInfo response object as read by `getJoinMeetingURL`:
returncode and messageKey may be absent (undefined), the password
properties are read as strings. -/
structure MeetingInfo where
  returncode : Option String
  messageKey : Option String
  moderatorPW : String
  attendeePW : String
deriving DecidableEq, Repr

/-- The success value handed to the callback of `getJoinMeetingURL`: an
object with the single field url. -/
structure JoinResult where
  url : String
deriving DecidableEq, Repr

/-- An observable event of a `getJoinMeetingURL` run. -/
inductive JoinEv (Err : Type)
  /-- `BBBProxy.executeBBBCall` is invoked for the given BBB action with the
  given signed URL. -/
  | bbbCall (action : String) (url : String)
  /-- `callback(err)` with a truthy error. -/
  | callbackErr (e : Err)
  /-- `callback(null, joinResult)`. -/
  | callbackUrl (r : JoinResult)
deriving DecidableEq, Repr

/-- Embedding of `getJoinMeetingURL(ctx, meetingProfile, user, callback)` as
the trace of its observable events. The responses of the two possible BBB
calls are supplied as the oracle arguments `infoResult` and `createResult`.
The trace follows the node event loop: inside the getMeetingInfo callback,
when the meeting is not found, the create call is only issued; the join URL
is then built and the callback invoked synchronously, before the create
response can arrive, so the join URL uses the locally computed moderatorPW
and the password assignments of the create callback happen after the
callback has already fired (on a create error the callback is invoked a
second time with the error). -/
def getJoinMeetingURL {Err : Type} (sha1 enc : String → String) (config : BBBCfg)
    (meetingProfile : MeetingProfile) (user : User)
    (infoResult createResult : Except Err MeetingInfo) : List (JoinEv Err) :=
  let fullName := enc user.displayName
  let meetingID := meetingIDOf sha1 meetingProfile.id config.secret
  let meetingName := enc meetingProfile.displayName
  let moderatorPW := initialModeratorPW sha1 meetingProfile.id config.secret
  let _attendeePW := initialAttendeePW sha1 meetingProfile.id config.secret
  let getMeetingInfoURL := getBBBActionURL sha1 config.endpoint "getMeetingInfo" config.secret
    (getQueryStringParams [("meetingID", meetingID)])
  JoinEv.bbbCall "getMeetingInfo" getMeetingInfoURL ::
    match infoResult with
    | .error e => [JoinEv.callbackErr e]
    | .ok meetingInfo =>
      if jsEqStr meetingInfo.returncode "FAILED" && jsEqStr meetingInfo.messageKey "notFound" then
        -- the params object with name, password and record built here in the
        -- source is never used: the create URL is built from meetingID alone
        let _createParams := [("meetingID", meetingID), ("name", meetingName),
          ("password", moderatorPW), ("record", "true")]
        let getCreateMeetingURL := getBBBActionURL sha1 config.endpoint "create" config.secret
          (getQueryStringParams [("meetingID", meetingID)])
        let params := getQueryStringParams
          [("meetingID", meetingID), ("fullName", fullName), ("password", moderatorPW)]
        let joinURL := getBBBActionURL sha1 config.endpoint "join" config.secret params
        JoinEv.bbbCall "create" getCreateMeetingURL :: JoinEv.callbackUrl ⟨joinURL⟩ ::
          (match createResult with
            | .error e => [JoinEv.callbackErr e]
            | .ok _ => [])
      else
        let params := getQueryStringParams
          [("meetingID", meetingID), ("fullName", fullName), ("password", meetingInfo.moderatorPW)]
        let joinURL := getBBBActionURL sha1 config.endpoint "join" config.secret params
        [JoinEv.callbackUrl ⟨joinURL⟩]

/-- The callback invocations of a `getJoinMeetingURL` trace, with the
outgoing BBB calls filtered out. -/
def joinCallbackEvents {Err : Type} (t : List (JoinEv Err)) : List (JoinEv Err) :=
  t.filter (fun e =>
    match e with
    | .bbbCall _ _ => false
    | _ => true)

/-- The signed join URL exactly as the specification words it: the endpoint,
then "api/join?", then the query string with keys meetingID, fullName and
password in that order, then "&checksum=" and the SHA-1 of "join" followed
by the params and the secret. Stated from the specification, to be compared
with the URL the embedded source builds. -/
def specJoinURL (sha1 : String → String) (endpoint secret meetingID fullName password : String) :
    String :=
  let params := "meetingID=" ++ meetingID ++ "&fullName=" ++ fullName ++ "&password=" ++ password
  endpoint ++ "api/join?" ++ params ++ "&checksum=" ++ sha1 ("join" ++ params ++ secret)

/-- A resource handed to `_produceMeetingMessageDocuments`: an id, and
possibly an array of messages under its messages property (an array is
truthy even when empty). -/
structure MsgResource (Msg : Type) where
  id : String
  messages : Option (List Msg)
deriving DecidableEq, Repr

/-- Embedding of underscore uniq with first occurrences kept, the seen
elements accumulated in `seen`. -/
def jsUniqAux {α : Type} [DecidableEq α] (seen : List α) : List α → List α
  | [] => []
  | x :: xs => if x ∈ seen then jsUniqAux seen xs else x :: jsUniqAux (x :: seen) xs

/-- Embedding of underscore `_.union` of two arrays: the concatenation with
duplicates removed, keeping first occurrences. -/
def underscoreUnion {α : Type} [DecidableEq α] (l1 l2 : List α) : List α :=
  jsUniqAux [] (l1 ++ l2)

/-- Embedding of `_.union(_errs, [err])` where `_errs` may still be
undefined: the strict shallow flatten inside union skips the undefined
argument. -/
def unionErrs {Err : Type} [DecidableEq Err] (errs : Option (List Err)) (err : Err) :
    List Err :=
  jsUniqAux [] (errs.getD [] ++ [err])

/-- Embedding of `_produceMeetingMessageDocuments(resources, callback,
_documents, _errs)` from src/lib/search.js, returning the list of callback
invocations (each a pair of the errs accumulator, still undefined when no
error occurred, and the documents accumulator). The external message-box
search helpers are abstracted: `createMessageSearchDocuments` returns the
documents for the messages stored on a resource, and
`createAllMessageSearchDocuments` is the asynchronous variant whose
callback receives a possible error and the documents; the search mapping
constant (whose value lives outside this code) is the `mapping` parameter.
The emptiness test and the pop of the last element are modelled with
`List.getLast?` and `List.dropLast`. -/
def produceMeetingMessageDocuments {Msg Doc Err : Type} [DecidableEq Doc] [DecidableEq Err]
    (mapping : String)
    (createMessageSearchDocuments : String → String → List Msg → List Doc)
    (createAllMessageSearchDocuments : String → String → String → Option Err × List Doc)
    (resources : List (MsgResource Msg)) (documents : List Doc) (errs : Option (List Err)) :
    List (Option (List Err) × List Doc) :=
  match hm : resources.getLast? with
  | none => [(errs, documents)]
  | some resource =>
    match resource.messages with
    | some messages =>
      produceMeetingMessageDocuments mapping createMessageSearchDocuments
        createAllMessageSearchDocuments resources.dropLast
        (underscoreUnion documents (createMessageSearchDocuments mapping resource.id messages))
        errs
    | none =>
      let result := createAllMessageSearchDocuments mapping resource.id resource.id
      produceMeetingMessageDocuments mapping createMessageSearchDocuments
        createAllMessageSearchDocuments resources.dropLast
        (underscoreUnion documents result.2)
        (match result.1 with
          | some err => some (unionErrs errs err)
          | none => errs)
termination_by resources.length
decreasing_by
  all_goals
    have hne : resources ≠ [] := by
      intro h
      rw [h] at hm
      simp at hm
    have hpos : 0 < resources.length := List.length_pos.mpr hne
    simp only [List.length_dropLast]
    omega

/-- The documents created for one resource by one step of
`_produceMeetingMessageDocuments`: from the messages stored on the resource
when present, otherwise from the all-messages call for the meeting. -/
def docsForResource {Msg Doc Err : Type}
    (mapping : String)
    (createMessageSearchDocuments : String → String → List Msg → List Doc)
    (createAllMessageSearchDocuments : String → String → String → Option Err × List Doc)
    (r : MsgResource Msg) : List Doc :=
  match r.messages with
  | some messages => createMessageSearchDocuments mapping r.id messages
  | none => (createAllMessageSearchDocuments mapping r.id r.id).2

/-- The errs accumulator update for one resource of
`_produceMeetingMessageDocuments`: only the all-messages call can
contribute an error. -/
def errsStepForResource {Msg Doc Err : Type} [DecidableEq Err]
    (mapping : String)
    (createAllMessageSearchDocuments : String → String → String → Option Err × List Doc)
    (r : MsgResource Msg) (errs : Option (List Err)) : Option (List Err) :=
  match r.messages with
  | some _ => errs
  | none =>
    match (createAllMessageSearchDocuments mapping r.id r.id).1 with
    | some err => some (unionErrs errs err)
    | none => errs

end OaeBbb

namespace OaeBbb

/-- C1: for every endpoint, action, secret and params string,
`_getBBBActionURL` returns exactly
the concatenation of endpoint, "api/", action, "?", params, "&checksum=" and
sha1 of action, params and secret concatenated:
for any sha1 implementation: the action URL is signed with the SHA-1 hash of
action, params and secret concatenated, and with nothing else. -/
theorem getBBBActionURL_signs_with_sha1_of_action_params_secret
    (sha1 : String → String) (endpoint action secret params : String) :
    getBBBActionURL sha1 endpoint action secret params =
      endpoint ++ "api/" ++ action ++ "?" ++ params ++ "&checksum=" ++
        sha1 (action ++ params ++ secret) := by
  rfl

/-- C6: `_getConfig(tenantAlias)` returns exactly the record whose `secret`
field is the configuration value at keys (tenantAlias, "bbb", "secret") and
whose `endpoint` field is the configuration value at keys
(tenantAlias, "bbb", "endpoint") unchanged, and `_getVerifiedBBBEndpoint` is
the identity function, performing no normalization. -/
theorem getConfig_reads_store_and_endpoint_verification_is_identity
    (getValue : String → String → String → String) (tenantAlias : String) :
    getConfig getValue tenantAlias =
        { endpoint := getValue tenantAlias "bbb" "endpoint",
          secret := getValue tenantAlias "bbb" "secret" } ∧
      (∀ endpoint : String, getVerifiedBBBEndpoint endpoint = endpoint) := by
  exact ⟨rfl, fun _ => rfl⟩

theorem jsSubstring_self_eq_empty (s : String) (n : Nat) : jsSubstring s n n = "" := by
  simp [jsSubstring, List.asString]

/-- C2 counterexample: the claim says a failing HTTP request leads to the
callback being invoked with the underlying error; at the concrete stimulus
of a request failing with error "ECONNREFUSED" the callback is never
invoked at all, because the source registers no error listener. -/
theorem executeBBBCall_requestError_not_propagated :
    executeBBBCall (fun r : String => r)
        (fun _ : String => (Except.error "parse failed" : Except String (ParsedXml String)))
        (.requestError "ECONNREFUSED") ≠
      .callbackCalled (.withErr "ECONNREFUSED") := by
  simp [executeBBBCall]

/-- C2 amended: whenever the XML parse fails with an error e, the callback
receives that same error object unmodified (no retry, no wrapping); but an
error of the underlying HTTP request itself is never delivered to the
callback, since no error handler is registered on the request. -/
theorem executeBBBCall_error_handling
    {Err Resp Chunk : Type} (returncode : Resp → String)
    (parse : Chunk → Except Err (ParsedXml Resp)) :
    (∀ (c : Chunk) (e : Err), parse c = .error e →
        executeBBBCall returncode parse (.responseChunk c) = .callbackCalled (.withErr e)) ∧
      (∀ e : Err, executeBBBCall returncode parse (.requestError e) = .noCallback) := by
  refine ⟨fun c e h => ?_, fun e => rfl⟩
  simp [executeBBBCall, h]

theorem executeBBBCall_error_handling_witness :
    executeBBBCall (fun r : String => r)
        (fun _ : String => (Except.error "boom" : Except String (ParsedXml String)))
        (.responseChunk "chunk") = .callbackCalled (.withErr "boom") ∧
      executeBBBCall (fun r : String => r)
        (fun _ : String => (Except.error "boom" : Except String (ParsedXml String)))
        (.requestError "down") = .noCallback := by
  have h := executeBBBCall_error_handling (fun r : String => r)
    (fun _ : String => (Except.error "boom" : Except String (ParsedXml String)))
  exact ⟨h.1 "chunk" "boom" rfl, h.2 "down"⟩

/-- C3: when the XML parse of a response chunk succeeds, `executeBBBCall`
invokes its callback with null error and the parsed response
object unchanged, and the outcome does not depend on the returncode
projection at all: the SUCCESS test has two identical branches, so no
classification of BBB-level failure is performed. -/
theorem executeBBBCall_parse_success_unclassified
    {Err Resp Chunk : Type} (returncode1 returncode2 : Resp → String)
    (parse : Chunk → Except Err (ParsedXml Resp)) (c : Chunk) (result : ParsedXml Resp)
    (h : parse c = .ok result) :
    executeBBBCall returncode1 parse (.responseChunk c) =
        .callbackCalled (.withResp result.response) ∧
      executeBBBCall returncode1 parse (.responseChunk c) =
        executeBBBCall returncode2 parse (.responseChunk c) := by
  constructor
  · simp [executeBBBCall, h]
  · simp [executeBBBCall, h]

theorem executeBBBCall_parse_success_unclassified_witness :
    executeBBBCall (fun _ : String => "FAILED")
        (fun _ : String => (Except.ok ⟨"resp"⟩ : Except String (ParsedXml String)))
        (.responseChunk "chunk") = .callbackCalled (.withResp "resp") ∧
      executeBBBCall (fun _ : String => "FAILED")
        (fun _ : String => (Except.ok ⟨"resp"⟩ : Except String (ParsedXml String)))
        (.responseChunk "chunk") =
      executeBBBCall (fun _ : String => "SUCCESS")
        (fun _ : String => (Except.ok ⟨"resp"⟩ : Except String (ParsedXml String)))
        (.responseChunk "chunk") :=
  executeBBBCall_parse_success_unclassified (fun _ => "FAILED") (fun _ => "SUCCESS")
    (fun _ => Except.ok ⟨"resp"⟩) "chunk" ⟨"resp"⟩ rfl

/-- C8: the attendee password computed by `getJoinMeetingURL` before
contacting BigBlueButton equals `sha1(config.secret)` for every meeting:
`meetingID.substring(8,8)` is always the empty string, so two runs with
different meeting profiles under the same tenant secret produce the same
initial attendeePW. -/
theorem initialAttendeePW_constant_in_meeting
    (sha1 : String → String) (profileId1 profileId2 secret : String) :
    initialAttendeePW sha1 profileId1 secret = sha1 secret ∧
      initialAttendeePW sha1 profileId1 secret = initialAttendeePW sha1 profileId2 secret := by
  constructor
  · simp [initialAttendeePW, jsSubstring_self_eq_empty, String.empty_append]
  · simp [initialAttendeePW, jsSubstring_self_eq_empty]

/-- C7: the search document produced for a meeting has resourceType
"meeting", id and tenantAlias taken from the meeting, q_high and sort equal
to its displayName, q_low equal to the space-joined concatenation of
displayName and description with falsy values dropped, the lastModified of
its `_extra` object equal to the meeting lastModified, and a description
field present exactly when the meeting description is truthy. -/
theorem produceMeetingSearchDocument_fields (meeting : Meeting) :
    (produceMeetingSearchDocument meeting).resourceType = "meeting" ∧
      (produceMeetingSearchDocument meeting).id = meeting.id ∧
      (produceMeetingSearchDocument meeting).tenantAlias = meeting.tenant.aliasName ∧
      (produceMeetingSearchDocument meeting).q_high = meeting.displayName ∧
      (produceMeetingSearchDocument meeting).sort = meeting.displayName ∧
      (produceMeetingSearchDocument meeting).q_low =
        joinSpace (compactStrings [some meeting.displayName, meeting.description]) ∧
      (produceMeetingSearchDocument meeting).extra_lastModified = meeting.lastModified ∧
      (produceMeetingSearchDocument meeting).description.isSome =
        jsTruthyStr meeting.description := by
  refine ⟨rfl, rfl, rfl, rfl, rfl, rfl, rfl, ?_⟩
  cases hd : meeting.description with
  | none => simp [produceMeetingSearchDocument, jsTruthyStr, hd]
  | some d =>
    by_cases h : d = ""
    · simp [produceMeetingSearchDocument, jsTruthyStr, hd, h]
    · simp [produceMeetingSearchDocument, jsTruthyStr, hd, h]

theorem getMeetingsLoop_of_no_embedded_meeting
    (resources : List SearchResource) (acc : List String)
    (h : ∀ r ∈ resources, r.meeting = none) :
    getMeetingsLoop resources acc = some (acc ++ resources.map (fun r => r.id)) := by
  induction resources generalizing acc with
  | nil => simp [getMeetingsLoop]
  | cons r rest ih =>
    have hr : r.meeting = none := h r (by simp)
    have hrest : ∀ x ∈ rest, x.meeting = none := fun x hx => h x (by simp [hx])
    simp [getMeetingsLoop, hr, ih (acc ++ [r.id]) hrest]

theorem getMeetingsLoop_of_embedded_meeting
    (resources : List SearchResource) (acc : List String)
    (h : ∃ r ∈ resources, r.meeting ≠ none) :
    getMeetingsLoop resources acc = none := by
  induction resources generalizing acc with
  | nil => simp at h
  | cons r rest ih =>
    cases hr : r.meeting with
    | some m => simp [getMeetingsLoop, hr]
    | none =>
      rcases h with ⟨x, hx, hxm⟩
      rcases List.mem_cons.mp hx with hhead | htail
      · subst hhead; exact absurd hr hxm
      · simp [getMeetingsLoop, hr, ih (acc ++ [r.id]) ⟨x, htail, hxm⟩]

/-- C9: when no resource has a truthy meeting property, `_getMeetings`
completes without throwing and hands the resource ids, in input order, to
`MeetingsDAO.getMeetingsById`, or calls back with the empty meetings list
when there are no ids; when some resource has a truthy meeting property a
ReferenceError is thrown, since the identifier `dicussions` is never
defined. -/
theorem getMeetings_spec (resources : List SearchResource) :
    ((∀ r ∈ resources, r.meeting = none) →
        getMeetings resources =
          if resources.isEmpty then .callbackEmptyMeetings
          else .daoGetMeetingsById (resources.map (fun r => r.id))) ∧
      ((∃ r ∈ resources, r.meeting ≠ none) → getMeetings resources = .thrown) := by
  constructor
  · intro h
    rw [getMeetings, getMeetingsLoop_of_no_embedded_meeting resources [] h]
    cases resources with
    | nil => simp
    | cons r rest => simp
  · intro h
    rw [getMeetings, getMeetingsLoop_of_embedded_meeting resources [] h]

theorem getMeetings_spec_witness :
    getMeetings [⟨"m1", none⟩, ⟨"m2", none⟩] = .daoGetMeetingsById ["m1", "m2"] ∧
      getMeetings [⟨"m3", some ⟨"x", ⟨"t"⟩, "n", none, "v", "lm"⟩⟩] = .thrown := by
  constructor
  · have h := (getMeetings_spec [⟨"m1", none⟩, ⟨"m2", none⟩]).1 (by decide)
    simpa using h
  · exact (getMeetings_spec [⟨"m3", some ⟨"x", ⟨"t"⟩, "n", none, "v", "lm"⟩⟩]).2
      ⟨⟨"m3", some ⟨"x", ⟨"t"⟩, "n", none, "v", "lm"⟩⟩, by simp, by simp⟩

theorem append_ne_empty (a b : String) (h : a ≠ "") : a ++ b ≠ "" := by
  intro hc
  apply h
  have hd := congrArg String.data hc
  rw [String.data_append] at hd
  rcases List.append_eq_nil.mp hd with ⟨h1, _⟩
  exact String.ext h1

theorem append_fuse_left (e a b c : String) (h : a ++ b = c) : e ++ a ++ b = e ++ c := by
  rw [String.append_assoc, h]

theorem qsStep_of_empty (p : String × String) : qsStep "" p = "" ++ p.1 ++ "=" ++ p.2 := by
  rw [qsStep, if_neg (by decide)]

theorem qsStep_of_ne_empty (acc : String) (p : String × String) (h : acc ≠ "") :
    qsStep acc p = acc ++ "&" ++ p.1 ++ "=" ++ p.2 := by
  rw [qsStep, if_pos (by simpa using h)]

theorem getQueryStringParams_join_params (mid fn pw : String) :
    getQueryStringParams [("meetingID", mid), ("fullName", fn), ("password", pw)] =
      "meetingID=" ++ mid ++ "&fullName=" ++ fn ++ "&password=" ++ pw := by
  simp only [getQueryStringParams, List.foldl_cons, List.foldl_nil]
  rw [qsStep_of_empty]
  simp only [String.empty_append]
  rw [(by decide : ("meetingID" ++ "=" : String) = "meetingID=")]
  rw [qsStep_of_ne_empty _ _ (append_ne_empty "meetingID=" mid (by decide))]
  rw [append_fuse_left _ "&" "fullName" "&fullName" (by decide),
    append_fuse_left _ "&fullName" "=" "&fullName=" (by decide)]
  rw [qsStep_of_ne_empty _ _ (append_ne_empty _ fn
    (append_ne_empty _ "&fullName=" (append_ne_empty "meetingID=" mid (by decide))))]
  rw [append_fuse_left _ "&" "password" "&password" (by decide),
    append_fuse_left _ "&password" "=" "&password=" (by decide)]

theorem getBBBActionURL_join_eq_specJoinURL
    (sha1 : String → String) (endpoint secret mid fn pw : String) :
    getBBBActionURL sha1 endpoint "join" secret
        (getQueryStringParams [("meetingID", mid), ("fullName", fn), ("password", pw)]) =
      specJoinURL sha1 endpoint secret mid fn pw := by
  rw [getQueryStringParams_join_params]
  simp only [getBBBActionURL, getChecksum, specJoinURL]
  rw [append_fuse_left _ "api/" "join" "api/join" (by decide),
    append_fuse_left _ "api/join" "?" "api/join?" (by decide)]

/-- C4: whenever getMeetingInfo returns without error, and the create call
(if one is issued) returns without error, `getJoinMeetingURL` invokes its
callback exactly once, with null error and an object whose single field url
holds the signed join URL: the endpoint, then "api/join?", then the
"&"-joined query string with exactly the keys meetingID, fullName and
password in that order, then "&checksum=" and the SHA-1 of "join" followed
by the params and the secret. -/
theorem getJoinMeetingURL_success_yields_signed_join_url
    {Err : Type} (sha1 enc : String → String) (config : BBBCfg)
    (meetingProfile : MeetingProfile) (user : User)
    (infoResult createResult : Except Err MeetingInfo) (info createInfo : MeetingInfo)
    (hinfo : infoResult = Except.ok info)
    (hcreate : (jsEqStr info.returncode "FAILED" && jsEqStr info.messageKey "notFound") = true →
      createResult = Except.ok createInfo) :
    ∃ password : String,
      joinCallbackEvents
          (getJoinMeetingURL sha1 enc config meetingProfile user infoResult createResult) =
        [JoinEv.callbackUrl ⟨specJoinURL sha1 config.endpoint config.secret
          (meetingIDOf sha1 meetingProfile.id config.secret) (enc user.displayName) password⟩] := by
  subst hinfo
  by_cases hc : (jsEqStr info.returncode "FAILED" && jsEqStr info.messageKey "notFound") = true
  · refine ⟨initialModeratorPW sha1 meetingProfile.id config.secret, ?_⟩
    rw [hcreate hc]
    simp [getJoinMeetingURL, hc, joinCallbackEvents, getBBBActionURL_join_eq_specJoinURL]
  · refine ⟨info.moderatorPW, ?_⟩
    simp [getJoinMeetingURL, hc, joinCallbackEvents, getBBBActionURL_join_eq_specJoinURL]

theorem getJoinMeetingURL_success_yields_signed_join_url_witness :
    ∃ password : String,
      joinCallbackEvents
          (getJoinMeetingURL (fun s => s) (fun s => s) ⟨"http://bbb.example/", "secret"⟩
            ⟨"mid", "Meeting"⟩ ⟨"User"⟩
            (Except.ok (⟨some "SUCCESS", none, "modpw", "attpw"⟩ : MeetingInfo))
            (Except.ok (⟨none, none, "", ""⟩ : MeetingInfo) : Except String MeetingInfo)) =
        [JoinEv.callbackUrl ⟨specJoinURL (fun s => s) "http://bbb.example/" "secret"
          (meetingIDOf (fun s => s) "mid" "secret") "User" password⟩] :=
  getJoinMeetingURL_success_yields_signed_join_url (fun s => s) (fun s => s)
    ⟨"http://bbb.example/", "secret"⟩ ⟨"mid", "Meeting"⟩ ⟨"User"⟩ _ _
    ⟨some "SUCCESS", none, "modpw", "attpw"⟩ ⟨none, none, "", ""⟩ rfl (fun _ => rfl)

/-- C5: given a successful getMeetingInfo response, `getJoinMeetingURL`
issues a signed create call to BigBlueButton exactly when the response has
returncode "FAILED" and messageKey "notFound"; for every other successful
getMeetingInfo response no create call is issued. -/
theorem getJoinMeetingURL_create_iff_notFound
    {Err : Type} (sha1 enc : String → String) (config : BBBCfg)
    (meetingProfile : MeetingProfile) (user : User)
    (createResult : Except Err MeetingInfo) (info : MeetingInfo) :
    (∃ url, JoinEv.bbbCall "create" url ∈
        getJoinMeetingURL sha1 enc config meetingProfile user (Except.ok info) createResult) ↔
      (jsEqStr info.returncode "FAILED" && jsEqStr info.messageKey "notFound") = true := by
  by_cases hc : (jsEqStr info.returncode "FAILED" && jsEqStr info.messageKey "notFound") = true
  · refine ⟨fun _ => hc, fun _ => ?_⟩
    refine ⟨getBBBActionURL sha1 config.endpoint "create" config.secret
      (getQueryStringParams [("meetingID", meetingIDOf sha1 meetingProfile.id config.secret)]), ?_⟩
    simp [getJoinMeetingURL, hc]
  · refine ⟨fun h => ?_, fun h => absurd h hc⟩
    exfalso
    rcases h with ⟨url, hmem⟩
    simp [getJoinMeetingURL, hc] at hmem

theorem getJoinMeetingURL_create_iff_notFound_witness :
    (∃ url, JoinEv.bbbCall "create" url ∈
        getJoinMeetingURL (fun s => s) (fun s => s) ⟨"e/", "sec"⟩ ⟨"pid", "Name"⟩ ⟨"U"⟩
          (Except.ok (⟨some "FAILED", some "notFound", "m", "a"⟩ : MeetingInfo))
          (Except.ok (⟨none, none, "", ""⟩ : MeetingInfo) : Except String MeetingInfo)) :=
  (getJoinMeetingURL_create_iff_notFound (fun s => s) (fun s => s) ⟨"e/", "sec"⟩
    ⟨"pid", "Name"⟩ ⟨"U"⟩ (Except.ok ⟨none, none, "", ""⟩)
    ⟨some "FAILED", some "notFound", "m", "a"⟩).mpr (by decide)

theorem produceMeetingMessageDocuments_nil
    {Msg Doc Err : Type} [DecidableEq Doc] [DecidableEq Err]
    (mapping : String)
    (cmsd : String → String → List Msg → List Doc)
    (camsd : String → String → String → Option Err × List Doc)
    (documents : List Doc) (errs : Option (List Err)) :
    produceMeetingMessageDocuments mapping cmsd camsd [] documents errs = [(errs, documents)] := by
  rw [produceMeetingMessageDocuments]
  split
  · rfl
  · next heq => simp at heq

theorem produceMeetingMessageDocuments_concat
    {Msg Doc Err : Type} [DecidableEq Doc] [DecidableEq Err]
    (mapping : String)
    (cmsd : String → String → List Msg → List Doc)
    (camsd : String → String → String → Option Err × List Doc)
    (l : List (MsgResource Msg)) (a : MsgResource Msg)
    (documents : List Doc) (errs : Option (List Err)) :
    produceMeetingMessageDocuments mapping cmsd camsd (l ++ [a]) documents errs =
      produceMeetingMessageDocuments mapping cmsd camsd l
        (underscoreUnion documents (docsForResource mapping cmsd camsd a))
        (errsStepForResource mapping camsd a errs) := by
  rw [produceMeetingMessageDocuments]
  split
  · next heq =>
    rw [List.getLast?_concat] at heq
    cases heq
  · next resource heq =>
    rw [List.getLast?_concat] at heq
    injection heq with heq
    subst heq
    rw [List.dropLast_concat]
    cases hmsg : a.messages with
    | some messages => simp [docsForResource, errsStepForResource, hmsg]
    | none => simp [docsForResource, errsStepForResource, hmsg]

/-- C10: for every finite resources array, `_produceMeetingMessageDocuments`
terminates and invokes its callback exactly once; each step removes the
last element of the array, so the resources are processed in reverse input
order, and the document list handed to the callback is the left-to-right
union, over the reversed resources, of the documents created for each
resource, starting from the initial accumulator. -/
theorem produceMeetingMessageDocuments_single_callback_union
    {Msg Doc Err : Type} [DecidableEq Doc] [DecidableEq Err]
    (mapping : String)
    (cmsd : String → String → List Msg → List Doc)
    (camsd : String → String → String → Option Err × List Doc)
    (resources : List (MsgResource Msg)) (documents : List Doc) (errs : Option (List Err)) :
    produceMeetingMessageDocuments mapping cmsd camsd resources documents errs =
      [(resources.reverse.foldl (fun e r => errsStepForResource mapping camsd r e) errs,
        resources.reverse.foldl
          (fun acc r => underscoreUnion acc (docsForResource mapping cmsd camsd r))
          documents)] := by
  induction resources using List.reverseRecOn generalizing documents errs with
  | nil => simp [produceMeetingMessageDocuments_nil]
  | append_singleton l a ih =>
    rw [produceMeetingMessageDocuments_concat, ih]
    simp [List.reverse_append]

end OaeBbb
